import Mathlib

/-!
Verification of the agent-email Instance Workflow Engine against its
specification.  The definitions below are a shallow embedding of the
relevant functions of src/server/server.js (and of the JSON-body callback
handler variant of the same server found in the repository); the external
collaborators (generation backend, delivery transport, review service) are
abstracted as oracles, matching the specification's treatment of them as
opaque interfaces.  File-system state is modelled explicitly: the per-run
state document (meta.json) as a record threaded through each flow, and the
artifact directory for one canonical output path as an indexed slot store.
Timestamps are abstract natural numbers.
-/

/-- The per-instance durable state document (meta.json).  `progress` keeps
only the message part of each appended `[timestamp, message]` pair. -/
structure MetaDoc where
  status : String
  started_at : Option Nat := none
  finished_at : Option Nat := none
  last_error : Option String := none
  last_html_path : Option String := none
  last_send_id : Option String := none
  progress : List String := []
deriving Repr, DecidableEq

/-- The optional `updates` object passed to updateMetaJson.  A field equal
to `some v` is present in the JS object and Object.assign copies it over
(`v = none` models an explicit JSON null value). -/
structure MetaUpdates where
  last_error : Option (Option String) := none
  last_html_path : Option (Option String) := none
  last_send_id : Option (Option String) := none
deriving Repr, DecidableEq

/-- Object.assign(meta, updates) restricted to the three fields the server
ever passes in the updates object. -/
def applyUpdates (m : MetaDoc) (u : MetaUpdates) : MetaDoc :=
  let m1 := match u.last_error with
    | none => m
    | some v => { m with last_error := v }
  let m2 := match u.last_html_path with
    | none => m1
    | some v => { m1 with last_html_path := v }
  match u.last_send_id with
  | none => m2
  | some v => { m2 with last_send_id := v }

/-- updateMetaJson (server.js 927-952) acting on the in-memory image of the
meta.json file.  `none` models a missing file: the JS throws and the caller
receives the error message.  `state = "active"` sets `started_at`,
`"finished"` sets `finished_at`, `"abort"` sets only the status; the
updates object is applied afterwards. -/
def updateMetaJson (file : Option MetaDoc) (state : String) (u : MetaUpdates)
    (now : Nat) : Except String MetaDoc :=
  match file with
  | none => .error "meta.json not found"
  | some meta =>
    let m :=
      if state = "active" then
        { meta with status := "active", started_at := some now }
      else if state = "finished" then
        { meta with status := "finished", finished_at := some now }
      else if state = "abort" then
        { meta with status := "abort" }
      else meta
    .ok (applyUpdates m u)

/-- The review-gate configuration block (`enable: bool` at minimum). -/
structure HitlCfg where
  enable : Bool := false
deriving Repr, DecidableEq

/-- The instance configuration fields read by the send flow.  The three
alternative review-gate keys of the JSON config are kept apart because
getHitlConfig takes the first present one. -/
structure Config where
  human_in_the_loop : Option HitlCfg := none
  hitl_upper : Option HitlCfg := none
  hitl_lower : Option HitlCfg := none
  to_list : List String := []
  cc_list : List String := []
  bcc_list : List String := []
  sender_email : Option String := none
deriving Repr, DecidableEq

/-- getHitlConfig (server.js 1222-1227): first present review-gate block,
else the empty object (whose enable flag is falsy). -/
def getHitlConfig (base : Config) : HitlCfg :=
  match base.human_in_the_loop with
  | some c => c
  | none =>
    match base.hitl_upper with
    | some c => c
    | none =>
      match base.hitl_lower with
      | some c => c
      | none => {}

/-- Presence test used by the send-flow validation (server.js 1297). -/
def hasHitlSection (base : Config) : Bool :=
  base.human_in_the_loop.isSome || base.hitl_upper.isSome || base.hitl_lower.isSome

/-- JS truthiness of an optional string: the empty string is falsy. -/
def strTruthy : Option String → Option String
  | some s => if s = "" then none else some s
  | none => none

/-- toArray inside buildRecipients (server.js 1170-1175) on an
already-array value: falsy (empty) entries are dropped. -/
def toArray (v : List String) : List String :=
  v.filter (fun s => s ≠ "")

/-- buildRecipients (server.js 1169-1180). -/
def buildRecipients (base : Config) : List String × List String × List String :=
  (toArray base.to_list, toArray base.cc_list, toArray base.bcc_list)

/-- The artifact slots for one canonical output path: `current` is the file
at the canonical path, and `archived.get? (n-1)` is the file at the
numbered sibling name `name-n.html`. -/
structure ArtifactStore where
  current : Option String := none
  archived : List (Option String) := []
deriving Repr, DecidableEq

/-- Content of archived slot `i` (0-based); absent past the end. -/
def getSlot (l : List (Option String)) (i : Nat) : Option String :=
  match l.get? i with
  | some o => o
  | none => none

/-- The do/while scan of writeHtmlWithArchive (server.js 1158-1159): the
first index n ≥ 1 whose numbered name does not exist yet. -/
def firstFreeIdx : List (Option String) → Nat
  | [] => 1
  | none :: _ => 1
  | some _ :: rest => firstFreeIdx rest + 1

/-- Write archived slot `i` (0-based), extending the list with empty slots
as needed. -/
def setSlot : List (Option String) → Nat → String → List (Option String)
  | [], 0, v => [some v]
  | [], n+1, v => none :: setSlot [] n v
  | _ :: t, 0, v => some v :: t
  | h :: t, n+1, v => h :: setSlot t n v

/-- The fs.renameSync step of writeHtmlWithArchive: move the existing file
at the canonical path to the first free numbered sibling name. -/
def archiveCurrent (st : ArtifactStore) : ArtifactStore :=
  match st.current with
  | none => st
  | some c =>
    { current := none, archived := setSlot st.archived (firstFreeIdx st.archived - 1) c }

/-- writeHtmlWithArchive (server.js 1153-1167): archive any existing file
first, and only then write the new content at the canonical path. -/
def writeHtmlWithArchive (st : ArtifactStore) (html : String) : ArtifactStore :=
  let st1 := archiveCurrent st
  { st1 with current := some html }

/-- Read the canonical path (n = 0) or the archived name `name-n.html`
(n ≥ 1). -/
def readSlot (st : ArtifactStore) (n : Nat) : Option String :=
  if n = 0 then st.current else getSlot st.archived (n - 1)

/-- JavaScript String.prototype.trim, implemented on the character list so
that it evaluates inside the kernel (the library trim is equivalent but is
defined by well-founded recursion on byte positions). -/
def jsTrim (s : String) : String :=
  ⟨((s.data.dropWhile Char.isWhitespace).reverse.dropWhile Char.isWhitespace).reverse⟩

/-- Result of callHitlAgent (server.js 1237-1254): a transport/HTTP error
string, or a decision normalized to status, input text and the optional
artifact overrides. -/
inductive HitlResult where
  | err (msg : String)
  | ok (status : String) (input : String) (htmlOverride : Option String)
      (htmlPathOverride : Option String)
deriving Repr, DecidableEq

/-- Outcome of a nested generateEmailFlow invocation, as observed by its
caller: the flow-level error field, the structured errorObj (its code), a
thrown exception propagating out, or the generated html with the relative
output path. -/
inductive GenOutcome where
  | errFlow (msg : String)
  | errObj (code : String)
  | threw (msg : String)
  | ok (html : String) (htmlOutputRel : String)
deriving Repr, DecidableEq

/-- The value sendEmailFlow hands back to its caller: the error field, the
halted marker of the pause path, a successful delivery id, or an exception
propagating to the caller's try/catch. -/
inductive SendResult where
  | error (msg : String)
  | halted (s : String)
  | sent (id : String)
  | threw (msg : String)
deriving Repr, DecidableEq

/-- Observable collaborator invocations made during a flow, in order. -/
inductive Event where
  | hitlCall (loopIndex : Nat)
  | regenCall (instructions : String)
  | deliverCall (toL ccL bccL : List String)
deriving Repr, DecidableEq

/-- The request-body fields sendEmailFlow reads. -/
structure SendBody where
  skipHitl : Bool := false
  htmlPath : Option String := none
  html : Option String := none
  senderEmail : Option String := none
deriving Repr, DecidableEq

/-- The external collaborators, abstracted as oracles: the review service
indexed by the loop index it is called with, the regeneration flow indexed
by loop index and instruction text, the delivery transport, and the file
reads the flow performs. -/
structure Collab where
  hitl : Nat → HitlResult
  regen : Nat → String → GenOutcome
  deliver : List String → List String → List String → String → Except String String
  readFile : String → Option String

/-- The state a flow threads: the meta.json image plus the trace of
collaborator invocations. -/
structure FlowState where
  meta : MetaDoc
  events : List Event
deriving Repr, DecidableEq

/-- appendProgress (server.js 954-969) on an existing state document. -/
def logp (st : FlowState) (msg : String) : FlowState :=
  { st with meta := { st.meta with progress := st.meta.progress ++ [msg] } }

/-- Record one collaborator invocation. -/
def emit (st : FlowState) (e : Event) : FlowState :=
  { st with events := st.events ++ [e] }

/-- updateMetaJson to abort with a last_error, as the flows call it; with
the document present (activation already succeeded) it cannot fail. -/
def setAbort (st : FlowState) (e : String) (now : Nat) : FlowState :=
  match updateMetaJson (some st.meta) "abort" { last_error := some (some e) } now with
  | .ok m => { st with meta := m }
  | .error _ => st

/-- How one iteration of the review loop ends: fall through to the delivery
step with the (possibly replaced) artifact, or return from the flow. -/
inductive LoopExit where
  | proceed (html : String) (htmlPath : String)
  | ret (r : SendResult)
deriving Repr, DecidableEq

/-- The HITL review loop of sendEmailFlow (server.js 1333-1457), for an
instance run.  One recursion step is one `while (true)` iteration.  The
only `continue` of the source is guarded by the bound check
`loops + 1 >= maxLoops` performed after the increment; `budget` carries
the equivalent quantity `maxLoops - loops - 1`, so the break condition
`loops + 1 >= maxLoops` is exactly `budget = 0` and the recursion is
structural.  The progress milestones of the nested generateEmailFlow call
are the three it appends for an instance run. -/
def hitlLoop (C : Collab) (base : Config) :
    Nat → Nat → String → String → FlowState → LoopExit × FlowState
  | budget, loops, html, htmlPath, st0 =>
    let loopMsg := if loops = 0 then "awaiting human input"
      else "awaiting human input (loop " ++ toString loops ++ ")"
    let st1 := logp st0 loopMsg
    let st2 := if loops > 0 then logp st1 ("hitl loop back #" ++ toString loops) else st1
    let st3 := emit st2 (.hitlCall loops)
    match C.hitl loops with
    | .err e =>
      let st4 := logp st3 ("hitl error: " ++ e)
      if (getHitlConfig base).enable then
        (.ret (.error e), setAbort st4 e 0)
      else
        (.proceed html htmlPath, logp st4 "hitl error (proceeding without block)")
    | .ok status0 input htmlOverride htmlPathOverride =>
      let status := if status0 = "" then "no-hitl" else status0
      if status = "no-hitl" || status = "approve" then
        let pair : String × String :=
          match htmlOverride with
          | some h => (h, htmlPath)
          | none =>
            match htmlPathOverride with
            | some p =>
              (match C.readFile p with
               | some c => c
               | none => html, p)
            | none => (html, htmlPath)
        (.proceed pair.1 pair.2, logp st3 "hitl approved")
      else if status = "wait-for-human" then
        (.ret (.halted "wait-for-human"), logp st3 "hitl wait-for-human")
      else if status = "reject" then
        let st4 := logp st3 "hitl rejected"
        (.ret (.error "hitl_rejected"), setAbort st4 "hitl_rejected" 0)
      else if status = "has-input" then
        let extra := jsTrim input
        let st4 := logp st3 ("hitl input: " ++ extra)
        if extra = "" then
          (.proceed html htmlPath, logp st4 "hitl approve (empty input)")
        else
          let st5 := logp st4 "hitl provided input; regenerating html"
          let st6 := emit st5 (.regenCall extra)
          let st7 := logp st6 "llm generating email"
          match C.regen loops extra with
          | .threw m => (.ret (.threw m), st7)
          | .errFlow m =>
            let st8 := logp st7 ("hitl regen error: " ++ m)
            (.ret (.error m), setAbort st8 m 0)
          | .errObj m =>
            let st8 := logp st7 ("hitl regen error: " ++ m)
            (.ret (.error m), setAbort st8 m 0)
          | .ok h rel =>
            let st8 := logp (logp st7 "saving html email to file") "generated html email"
            match budget with
            | 0 => (.proceed h rel, logp st8 "hitl loop limit reached")
            | b + 1 => hitlLoop C base b (loops + 1) h rel st8
      else
        let st4 := logp st3 ("hitl unknown status: " ++ status)
        (.ret (.error "hitl_unknown_status"),
          setAbort st4 ("hitl_unknown_status:" ++ status) 0)

/-- The tail of sendEmailFlow after the artifact is in hand (server.js
1318-1475): recipient resolution and its hard stop, the review loop entry
(bypassed when the caller set skipHitl), and the delivery step. -/
def sendCore (C : Collab) (base : Config) (body : SendBody) (maxLoops : Nat)
    (html htmlPath : String) (st0 : FlowState) : SendResult × FlowState :=
  let r := buildRecipients base
  let toL := r.1
  let ccL := r.2.1
  let bccL := r.2.2
  if toL.isEmpty && ccL.isEmpty && bccL.isEmpty then
    (.error "no_recipients_configured", st0)
  else
    let ex :=
      if body.skipHitl then (LoopExit.proceed html htmlPath, st0)
      else hitlLoop C base (maxLoops - 1) 0 html htmlPath st0
    match ex with
    | (.ret r, st1) => (r, st1)
    | (.proceed html1 _, st1) =>
      let st2 := if body.skipHitl then logp st1 "hitl skipped" else st1
      let st3 := logp st2 "sending emails"
      let fromEmail :=
        match strTruthy body.senderEmail with
        | some s => s
        | none =>
          match strTruthy base.sender_email with
          | some s => s
          | none => ""
      let toSend := if toL.isEmpty then [fromEmail] else toL
      let st4 := emit st3 (.deliverCall toSend ccL bccL)
      match C.deliver toSend ccL bccL html1 with
      | .error m => (.threw m, st4)
      | .ok sendId => (.sent sendId, logp st4 "sent email")

/-- sendEmailFlow (server.js 1292-1475) for an instance run (ctx.paths
present, so the artifact path defaults to artifacts/email.html and all the
instance-only progress records are written).  `maxLoops` is the value of
`Number(process.env.HITL_MAX_LOOPS || 3)`. -/
def sendEmailFlow (C : Collab) (base : Config) (body : SendBody)
    (overrideHtml : Option String) (maxLoops now : Nat) (meta0 : MetaDoc) :
    SendResult × FlowState :=
  let st0 : FlowState := { meta := meta0, events := [] }
  if hasHitlSection base = false then
    let st1 := logp st0 "missing_hitl_config_section"
    (.error "missing_hitl_config_section", setAbort st1 "missing_hitl_config_section" now)
  else
    let htmlPath : String :=
      match strTruthy body.htmlPath with
      | some p => p
      | none =>
        match strTruthy body.html with
        | some _ => "artifacts/tmp/email-materialized.html"
        | none => "artifacts/email.html"
    let htmlRead : Except String String :=
      match strTruthy overrideHtml with
      | some h => .ok h
      | none =>
        match strTruthy body.html with
        | some h => .ok h
        | none =>
          match C.readFile htmlPath with
          | some c => .ok c
          | none => .error ("ENOENT: " ++ htmlPath)
    match htmlRead with
    | .error m => (.threw m, st0)
    | .ok html => sendCore C base body maxLoops html htmlPath st0

/-- The asynchronous send background task (server.js 1611-1639): run
sendEmailFlow, finalize the state document, and catch any exception at the
task boundary, recording it as last_error and aborting the run.  The
document exists when the task starts (activation already wrote it). -/
def handleSendBg (C : Collab) (base : Config) (body : SendBody)
    (maxLoops now : Nat) (meta0 : MetaDoc) : SendResult × FlowState :=
  let r := sendEmailFlow C base body none maxLoops now meta0
  match r.1 with
  | .error e => (r.1, setAbort r.2 e now)
  | .halted s => (.halted s, r.2)
  | .sent sendId =>
    (r.1, match updateMetaJson (some r.2.meta) "finished"
        { last_error := some none, last_send_id := some (some sendId) } now with
      | .ok m => { r.2 with meta := m }
      | .error _ => r.2)
  | .threw e => (r.1, setAbort r.2 e now)

/-- The asynchronous generate-then-send background task (server.js
1714-1752): the generation outcome is the oracle value `gen`; a generation
error aborts, otherwise sendEmailFlow runs with the generated html and the
task finalizes, with the same catch-all at the task boundary. -/
def handleGenerateSendBg (C : Collab) (base : Config) (body : SendBody)
    (gen : GenOutcome) (maxLoops now : Nat) (meta0 : MetaDoc) : SendResult × FlowState :=
  let st0 : FlowState := { meta := meta0, events := [] }
  match gen with
  | .threw e => (.threw e, setAbort st0 e now)
  | .errFlow e => (.error e, setAbort st0 e now)
  | .errObj e => (.error e, setAbort st0 e now)
  | .ok html rel =>
    let r := sendEmailFlow C base body (some html) maxLoops now meta0
    match r.1 with
    | .error e =>
      (r.1, match updateMetaJson (some r.2.meta) "abort"
          { last_error := some (some e), last_html_path := some (some rel) } now with
        | .ok m => { r.2 with meta := m }
        | .error _ => r.2)
    | .halted s => (.halted s, r.2)
    | .sent sendId =>
      (r.1, match updateMetaJson (some r.2.meta) "finished"
          { last_error := some none, last_html_path := some (some rel),
            last_send_id := some (some sendId) } now with
        | .ok m => { r.2 with meta := m }
        | .error _ => r.2)
    | .threw e => (r.1, setAbort r.2 e now)

/-- resolveContext with activate (server.js 1077-1110), restricted to its
state effects: updateMetaJson to active with no updates object, then the
config instance_id mismatch check against the final path segment of the
instance root.  Returns the resulting file image and the error of the
returned context, if any.  Quote characters of the JS messages are
omitted, and the file path is omitted from the not-found message. -/
def resolveContextActivate (file : Option MetaDoc) (cfgId : Option String)
    (folderLast : String) (now : Nat) : Option MetaDoc × Option String :=
  match updateMetaJson file "active" {} now with
  | .error e => (file, some ("meta.json error: " ++ e))
  | .ok m =>
    match strTruthy cfgId with
    | some cid =>
      if cid ≠ folderLast then
        (some m, some ("instance_id mismatch: config has " ++ cid ++ ", folder is " ++ folderLast))
      else (some m, none)
    | none => (some m, none)

/-- The asynchronous generate background task (server.js 1510-1535): the
generation outcome is the oracle value `gen` (the nested flow's progress
appends are folded into it; they touch neither status nor last_error); a
generation error or an exception caught at the task boundary aborts the
run with last_error set, and success finalizes to finished with
last_html_path recorded and last_error cleared. -/
def handleGenerateBg (gen : GenOutcome) (now : Nat) (meta0 : MetaDoc) : MetaDoc :=
  let fin : Except String MetaDoc :=
    match gen with
    | .errFlow e => updateMetaJson (some meta0) "abort" { last_error := some (some e) } now
    | .errObj e => updateMetaJson (some meta0) "abort" { last_error := some (some e) } now
    | .threw e => updateMetaJson (some meta0) "abort" { last_error := some (some e) } now
    | .ok _ rel => updateMetaJson (some meta0) "finished"
        { last_error := some none, last_html_path := some (some rel) } now
  match fin with
  | .ok m => m
  | .error _ => meta0

/-- The synchronous generate handler (server.js 1538-1559) for an instance
run: the nested generateEmailFlow activates the state document through
resolveContext (its progress appends are folded into the gen oracle and
touch neither status nor last_error), and the handler then answers 200,
400 or 500 with no further updateMetaJson call — this handler has no
finalization step, and its error path only emits a state - abort log line
(agent_log) without persisting it.  Returns the HTTP status code and the
state-document image. -/
def handleGenerateSync (gen : GenOutcome) (file : Option MetaDoc) (cfgId : Option String)
    (folderLast : String) (now : Nat) : Nat × Option MetaDoc :=
  match resolveContextActivate file cfgId folderLast now with
  | (f, some _) => (400, f)
  | (f, none) =>
    match gen with
    | .errFlow _ => (400, f)
    | .errObj _ => (400, f)
    | .threw _ => (500, f)
    | .ok _ _ => (200, f)

/-- The wi_response handler dispatch (server.js 1853-1942), after context
resolution, restricted to its state effects: approve re-runs sendEmailFlow
with the gate bypassed and finalizes to finished; modify regenerates with
the supplied text (writing the artifact through the archiving rule) and
re-runs the send flow with the gate re-engaged, leaving the run state to
that flow; reject sets abort with no updates object; anything else answers
501 respond_not_implemented and performs no state write.  The first
component is the HTTP status code answered. -/
def wiRespond (C : Collab) (base : Config) (maxLoops now : Nat)
    (respond info : String) (meta0 : MetaDoc) (store : ArtifactStore) :
    Nat × MetaDoc × ArtifactStore × List Event :=
  if respond = "approve" then
    let r := sendEmailFlow C base { skipHitl := true } none maxLoops now meta0
    match r.1 with
    | .error _ => (400, r.2.meta, store, r.2.events)
    | .threw _ => (500, r.2.meta, store, r.2.events)
    | _ =>
      match updateMetaJson (some r.2.meta) "finished" {} now with
      | .error _ => (200, r.2.meta, store, r.2.events)
      | .ok m => (200, m, store, r.2.events)
  else if respond = "modify" then
    if info = "" then (400, meta0, store, [])
    else
      let m1 : MetaDoc := { meta0 with progress := meta0.progress ++ ["llm generating email"] }
      match C.regen 0 info with
      | .threw _ => (500, m1, store, [Event.regenCall info])
      | .errFlow _ => (400, m1, store, [Event.regenCall info])
      | .errObj _ => (400, m1, store, [Event.regenCall info])
      | .ok h _rel =>
        let m2 : MetaDoc := { m1 with progress :=
          m1.progress ++ ["saving html email to file", "generated html email"] }
        let store1 := writeHtmlWithArchive store h
        let r := sendEmailFlow C base {} (some h) maxLoops now m2
        match r.1 with
        | .error _ => (400, r.2.meta, store1, Event.regenCall info :: r.2.events)
        | .threw _ => (500, r.2.meta, store1, Event.regenCall info :: r.2.events)
        | .halted _ => (200, r.2.meta, store1, Event.regenCall info :: r.2.events)
        | .sent _ => (200, r.2.meta, store1, Event.regenCall info :: r.2.events)
  else if respond = "reject" then
    match updateMetaJson (some meta0) "abort" {} now with
    | .error _ => (500, meta0, store, [])
    | .ok m => (200, m, store, [])
  else (501, meta0, store, [])

/-- The reject branch of the JSON-body callback handler of the other
server revision in the repository (hitl-callback handler, lines 1023-1053
of that file): it requires the information text, appends the reject reason
to the progress sequence, and sets the run to abort with no updates
object.  The first component is the HTTP status code answered. -/
def hitlCallbackReject (info : String) (meta0 : MetaDoc) (store : ArtifactStore)
    (now : Nat) : Nat × MetaDoc × ArtifactStore :=
  if info = "" then (400, meta0, store)
  else
    let m1 : MetaDoc := { meta0 with progress := meta0.progress ++ ["reject reason: " ++ info] }
    match updateMetaJson (some m1) "abort" {} now with
    | .error _ => (500, m1, store)
    | .ok m => (200, m, store)

/-- Number of review-service invocations in a trace. -/
def hitlCalls (es : List Event) : Nat :=
  es.countP fun e => match e with
    | .hitlCall _ => true
    | _ => false

/-- Number of regeneration cycles in a trace. -/
def regenCalls (es : List Event) : Nat :=
  es.countP fun e => match e with
    | .regenCall _ => true
    | _ => false

/-- Whether the delivery transport was invoked in a trace. -/
def deliverInvoked (es : List Event) : Bool :=
  es.any fun e => match e with
    | .deliverCall _ _ _ => true
    | _ => false

/-- A review service that always answers has-input with a non-empty
revision instruction. -/
def alwaysInputCollab : Collab where
  hitl := fun _ => .ok "has-input" "x" none none
  regen := fun _ _ => .ok "<p>new</p>" "artifacts/email.html"
  deliver := fun _ _ _ _ => .ok "m1"
  readFile := fun _ => some "<p>v</p>"

/-- A review service that pauses on its first evaluation. -/
def waitCollab : Collab where
  hitl := fun _ => .ok "wait-for-human" "" none none
  regen := fun _ _ => .ok "<p>new</p>" "artifacts/email.html"
  deliver := fun _ _ _ _ => .ok "m2"
  readFile := fun _ => some "<p>v</p>"

/-- An unreachable review service (every call errors). -/
def errCollab : Collab where
  hitl := fun _ => .err "hitl_http_500"
  regen := fun _ _ => .ok "<p>new</p>" "artifacts/email.html"
  deliver := fun _ _ _ _ => .ok "m3"
  readFile := fun _ => some "<p>v</p>"

/-- A configuration with the review gate enabled and one recipient. -/
def gateOnConfig : Config :=
  { hitl_lower := some { enable := true }, to_list := ["a@example.com"] }

/-- A configuration with the review-gate block present but disabled, and
one recipient. -/
def gateOffConfig : Config :=
  { hitl_lower := some { enable := false }, to_list := ["a@example.com"] }

/-- A configuration with no review-gate block at all. -/
def noGateConfig : Config :=
  { to_list := ["a@example.com"] }

/-- A configuration with a review gate but no recipients. -/
def noRecipConfig : Config :=
  { hitl_lower := some { enable := true } }

/-- A freshly activated state document. -/
def activeMeta : MetaDoc :=
  { status := "active" }

/-- The flow state accumulated by one full has-input iteration of the
review loop, just before it re-enters evaluation. -/
def hasInputStepState (st : FlowState) (loops : Nat) (extra : String) : FlowState :=
  let loopMsg := if loops = 0 then "awaiting human input"
    else "awaiting human input (loop " ++ toString loops ++ ")"
  let st1 := logp st loopMsg
  let st2 := if loops > 0 then logp st1 ("hitl loop back #" ++ toString loops) else st1
  let st3 := emit st2 (.hitlCall loops)
  let st4 := logp st3 ("hitl input: " ++ extra)
  let st5 := logp st4 "hitl provided input; regenerating html"
  let st6 := emit st5 (.regenCall extra)
  let st7 := logp st6 "llm generating email"
  logp (logp st7 "saving html email to file") "generated html email"

/-- The flow state accumulated by the loop prefix of one evaluation (the
progress records and the review-service invocation), before the decision
is interpreted. -/
def evalPrefixState (st : FlowState) (loops : Nat) : FlowState :=
  let loopMsg := if loops = 0 then "awaiting human input"
    else "awaiting human input (loop " ++ toString loops ++ ")"
  let st1 := logp st loopMsg
  let st2 := if loops > 0 then logp st1 ("hitl loop back #" ++ toString loops) else st1
  emit st2 (.hitlCall loops)

theorem logp_meta_status (st : FlowState) (m : String) :
    (logp st m).meta.status = st.meta.status := rfl

theorem logp_events (st : FlowState) (m : String) :
    (logp st m).events = st.events := rfl

theorem emit_meta (st : FlowState) (e : Event) :
    (emit st e).meta = st.meta := rfl

theorem firstFreeIdx_pos : ∀ l : List (Option String), 1 ≤ firstFreeIdx l
  | [] => le_refl 1
  | none :: _ => le_refl 1
  | some _ :: t => by
      have := firstFreeIdx_pos t
      simp only [firstFreeIdx]
      omega

theorem getSlot_setSlot_self : ∀ (l : List (Option String)) (i : Nat) (v : String),
    getSlot (setSlot l i v) i = some v
  | [], 0, _ => rfl
  | [], n+1, v => by
      have ih := getSlot_setSlot_self [] n v
      simpa [setSlot, getSlot] using ih
  | _ :: _, 0, _ => rfl
  | _ :: t, n+1, v => by
      have ih := getSlot_setSlot_self t n v
      simpa [setSlot, getSlot] using ih

theorem getSlot_firstFree : ∀ l : List (Option String), getSlot l (firstFreeIdx l - 1) = none
  | [] => rfl
  | none :: _ => rfl
  | some a :: t => by
      have ih := getSlot_firstFree t
      obtain ⟨k, hk⟩ : ∃ k, firstFreeIdx t = k + 1 :=
        ⟨firstFreeIdx t - 1, by have := firstFreeIdx_pos t; omega⟩
      rw [hk] at ih
      simp only [Nat.add_sub_cancel] at ih
      have hidx : firstFreeIdx (some a :: t) - 1 = k + 1 := by
        simp only [firstFreeIdx, hk]
        omega
      rw [hidx]
      simpa [getSlot] using ih

theorem firstFree_min : ∀ (l : List (Option String)) (m : Nat),
    1 ≤ m → m < firstFreeIdx l → getSlot l (m - 1) ≠ none
  | [], m, h1, h2 => by simp [firstFreeIdx] at h2; omega
  | none :: _, m, h1, h2 => by simp [firstFreeIdx] at h2; omega
  | some a :: t, m, h1, h2 => by
      rcases Nat.lt_or_ge m 2 with hm | hm
      · have : m = 1 := by omega
        subst this
        simp [getSlot]
      · have h2' : m - 1 < firstFreeIdx t := by
          simp only [firstFreeIdx] at h2; omega
        have ih := firstFree_min t (m - 1) (by omega) h2'
        obtain ⟨j, hj⟩ : ∃ j, m = j + 2 := ⟨m - 2, by omega⟩
        subst hj
        simp only [Nat.add_sub_cancel] at *
        simpa [getSlot] using ih

theorem readSlot_write_archived (st : ArtifactStore) (h c : String)
    (hc : st.current = some c) :
    readSlot (writeHtmlWithArchive st h) (firstFreeIdx st.archived) = some c := by
  have hpos := firstFreeIdx_pos st.archived
  simp only [writeHtmlWithArchive, archiveCurrent, hc, readSlot]
  rw [if_neg (by omega)]
  exact getSlot_setSlot_self _ _ _

/-- C6: writing an artifact over an existing one first moves the existing
content to the numbered sibling name with the first free index and only
then writes the new content at the canonical path; after generating twice
at the same path, both generated contents are readable. -/
theorem C6_archive_then_write (st : ArtifactStore) (c h1 h2 : String)
    (hc : st.current = some c) :
    (readSlot (writeHtmlWithArchive st h1) (firstFreeIdx st.archived) = some c
      ∧ getSlot st.archived (firstFreeIdx st.archived - 1) = none
      ∧ (∀ m, 1 ≤ m → m < firstFreeIdx st.archived → getSlot st.archived (m - 1) ≠ none)
      ∧ (writeHtmlWithArchive st h1).current = some h1)
    ∧ (readSlot (writeHtmlWithArchive (writeHtmlWithArchive st h1) h2) 0 = some h2
      ∧ ∃ n, 1 ≤ n ∧
          readSlot (writeHtmlWithArchive (writeHtmlWithArchive st h1) h2) n = some h1) := by
  constructor
  · refine ⟨readSlot_write_archived st h1 c hc, getSlot_firstFree st.archived,
      firstFree_min st.archived, ?_⟩
    simp [writeHtmlWithArchive, archiveCurrent, hc]
  · constructor
    · simp [writeHtmlWithArchive, readSlot]
    · have hcur : (writeHtmlWithArchive st h1).current = some h1 := by
        simp [writeHtmlWithArchive]
      exact ⟨firstFreeIdx (writeHtmlWithArchive st h1).archived,
        firstFreeIdx_pos _, readSlot_write_archived _ h2 h1 hcur⟩

/-- Witness for C6: a store holding one reviewed artifact, written twice. -/
theorem C6_archive_then_write_witness :
    (ArtifactStore.mk (some "v0") []).current = some "v0" ∧
    readSlot (writeHtmlWithArchive (writeHtmlWithArchive ⟨some "v0", []⟩ "v1") "v2") 0 = some "v2" ∧
    ∃ n, 1 ≤ n ∧
      readSlot (writeHtmlWithArchive (writeHtmlWithArchive ⟨some "v0", []⟩ "v1") "v2") n = some "v1" :=
  ⟨rfl, (C6_archive_then_write ⟨some "v0", []⟩ "v0" "v1" "v2" rfl).2.1,
    (C6_archive_then_write ⟨some "v0", []⟩ "v0" "v1" "v2" rfl).2.2⟩

theorem hitlLoop_step_hasInput (C : Collab) (base : Config) (b loops : Nat)
    (html htmlPath inp h rel : String) (hov hpv : Option String) (st : FlowState)
    (hC : C.hitl loops = .ok "has-input" inp hov hpv) (hne : jsTrim inp ≠ "")
    (hR : C.regen loops (jsTrim inp) = .ok h rel) :
    hitlLoop C base (b + 1) loops html htmlPath st
      = hitlLoop C base b (loops + 1) h rel (hasInputStepState st loops (jsTrim inp)) := by
  conv_lhs => rw [hitlLoop]
  simp only [hC, hne, hR, hasInputStepState]
  simp [hne]

theorem stepState_events (st : FlowState) (loops : Nat) (extra : String) :
    (hasInputStepState st loops extra).events
      = st.events ++ [Event.hitlCall loops, Event.regenCall extra] := by
  simp [hasInputStepState, logp, emit]
  split <;> rfl

theorem stepState_status (st : FlowState) (loops : Nat) (extra : String) :
    (hasInputStepState st loops extra).meta.status = st.meta.status := by
  simp [hasInputStepState, logp, emit]
  split <;> rfl

theorem hitlLoop_allHasInput (C : Collab) (base : Config)
    (hd : ∀ n, ∃ inp hov hpv, C.hitl n = .ok "has-input" inp hov hpv ∧ jsTrim inp ≠ "")
    (hr : ∀ n s, ∃ h rel, C.regen n s = .ok h rel) :
    ∀ (budget loops : Nat) (html htmlPath : String) (st : FlowState),
      (∃ h p, (hitlLoop C base budget loops html htmlPath st).1 = .proceed h p) ∧
      hitlCalls (hitlLoop C base budget loops html htmlPath st).2.events
        = hitlCalls st.events + (budget + 1) ∧
      regenCalls (hitlLoop C base budget loops html htmlPath st).2.events
        = regenCalls st.events + (budget + 1) ∧
      (hitlLoop C base budget loops html htmlPath st).2.meta.status = st.meta.status := by
  intro budget
  induction budget with
  | zero =>
    intro loops html htmlPath st
    obtain ⟨inp, hov, hpv, hC, hne⟩ := hd loops
    obtain ⟨h, rel, hR⟩ := hr loops (jsTrim inp)
    refine ⟨⟨h, rel, ?_⟩, ?_, ?_, ?_⟩ <;>
      simp [hitlLoop, hC, hne, hR, logp, emit, hitlCalls, regenCalls,
        List.countP_append, List.countP_cons] <;>
      (try (split <;> rfl))
  | succ b ih =>
    intro loops html htmlPath st
    obtain ⟨inp, hov, hpv, hC, hne⟩ := hd loops
    obtain ⟨h, rel, hR⟩ := hr loops (jsTrim inp)
    rw [hitlLoop_step_hasInput C base b loops html htmlPath inp h rel hov hpv st hC hne hR]
    obtain ⟨hp, hc1, hc2, hs⟩ := ih (loops + 1) h rel (hasInputStepState st loops (jsTrim inp))
    refine ⟨hp, ?_, ?_, ?_⟩
    · rw [hc1, stepState_events]
      simp [hitlCalls, List.countP_append, List.countP_cons]
      omega
    · rw [hc2, stepState_events]
      simp [regenCalls, List.countP_append, List.countP_cons]
      omega
    · rw [hs, stepState_status]

theorem hitlLoop_halted (C : Collab) (base : Config) :
    ∀ (budget loops : Nat) (html htmlPath : String) (st : FlowState) (s : String),
      (hitlLoop C base budget loops html htmlPath st).1 = LoopExit.ret (.halted s) →
      s = "wait-for-human" ∧
      (hitlLoop C base budget loops html htmlPath st).2.meta.status = st.meta.status := by
  intro budget
  induction budget with
  | zero =>
    intro loops html htmlPath st s hh
    rcases hC : C.hitl loops with e | ⟨st0, inp, hov, hpv⟩
    · by_cases he : (getHitlConfig base).enable <;> simp [hitlLoop, hC, he, setAbort] at hh
    · by_cases h0 : st0 = ""
      · simp [hitlLoop, hC, h0] at hh
      by_cases h1 : st0 = "no-hitl"
      · simp [hitlLoop, hC, h0, h1] at hh
      by_cases h2 : st0 = "approve"
      · simp [hitlLoop, hC, h0, h1, h2] at hh
      by_cases h3 : st0 = "wait-for-human"
      · constructor
        · simp [hitlLoop, hC, h0, h1, h2, h3] at hh
          exact hh.symm
        · simp [hitlLoop, hC, h0, h1, h2, h3, logp, emit]
          split <;> rfl
      by_cases h4 : st0 = "reject"
      · simp [hitlLoop, hC, h0, h1, h2, h3, h4, setAbort] at hh
      by_cases h5 : st0 = "has-input"
      · by_cases hne : jsTrim inp = ""
        · simp [hitlLoop, hC, h0, h1, h2, h3, h4, h5, hne] at hh
        rcases hR : C.regen loops (jsTrim inp) with m | m | m | ⟨h, rel⟩ <;>
          simp [hitlLoop, hC, h0, h1, h2, h3, h4, h5, hne, hR, setAbort] at hh
      · simp [hitlLoop, hC, h0, h1, h2, h3, h4, h5, setAbort] at hh
  | succ b ih =>
    intro loops html htmlPath st s hh
    rcases hC : C.hitl loops with e | ⟨st0, inp, hov, hpv⟩
    · by_cases he : (getHitlConfig base).enable <;> simp [hitlLoop, hC, he, setAbort] at hh
    · by_cases h0 : st0 = ""
      · simp [hitlLoop, hC, h0] at hh
      by_cases h1 : st0 = "no-hitl"
      · simp [hitlLoop, hC, h0, h1] at hh
      by_cases h2 : st0 = "approve"
      · simp [hitlLoop, hC, h0, h1, h2] at hh
      by_cases h3 : st0 = "wait-for-human"
      · constructor
        · simp [hitlLoop, hC, h0, h1, h2, h3] at hh
          exact hh.symm
        · simp [hitlLoop, hC, h0, h1, h2, h3, logp, emit]
          split <;> rfl
      by_cases h4 : st0 = "reject"
      · simp [hitlLoop, hC, h0, h1, h2, h3, h4, setAbort] at hh
      by_cases h5 : st0 = "has-input"
      · by_cases hne : jsTrim inp = ""
        · simp [hitlLoop, hC, h0, h1, h2, h3, h4, h5, hne] at hh
        subst h5
        rcases hR : C.regen loops (jsTrim inp) with m | m | m | ⟨h, rel⟩
        · simp [hitlLoop, hC, h0, h1, h2, h3, h4, hne, hR] at hh
        · simp [hitlLoop, hC, h0, h1, h2, h3, h4, hne, hR, setAbort] at hh
        · simp [hitlLoop, hC, h0, h1, h2, h3, h4, hne, hR, setAbort] at hh
        · rw [hitlLoop_step_hasInput C base b loops html htmlPath inp h rel hov hpv st hC hne hR] at hh ⊢
          obtain ⟨hs1, hs2⟩ := ih (loops + 1) h rel (hasInputStepState st loops (jsTrim inp)) s hh
          exact ⟨hs1, by rw [hs2, stepState_status]⟩
      · simp [hitlLoop, hC, h0, h1, h2, h3, h4, h5, setAbort] at hh

theorem hitlCalls_append (a b : List Event) :
    hitlCalls (a ++ b) = hitlCalls a + hitlCalls b := by
  simp [hitlCalls, List.countP_append]

theorem regenCalls_append (a b : List Event) :
    regenCalls (a ++ b) = regenCalls a + regenCalls b := by
  simp [regenCalls, List.countP_append]

theorem hitlCalls_deliver (t c b : List String) :
    hitlCalls [Event.deliverCall t c b] = 0 := rfl

theorem regenCalls_deliver (t c b : List String) :
    regenCalls [Event.deliverCall t c b] = 0 := rfl

theorem deliverInvoked_snoc (es : List Event) (t c b : List String) :
    deliverInvoked (es ++ [Event.deliverCall t c b]) = true := by
  simp [deliverInvoked, List.any_append]

/-- C1: with the review gate engaged and a collaborator that always answers
has-input with non-empty text (and a regeneration that succeeds), the send
flow performs at most maxLoops regeneration cycles, evaluates the reviewer
at most maxLoops + 1 times, and then proceeds to the delivery step
(exhaustion of the bound acts as an implicit approval); termination itself
is unconditional because hitlLoop is total by construction. -/
theorem C1_review_loop_bounded (C : Collab) (base : Config) (body : SendBody)
    (maxLoops now : Nat) (meta0 : MetaDoc) (c : String)
    (hm : 1 ≤ maxLoops)
    (hsec : hasHitlSection base = true)
    (hskip : body.skipHitl = false)
    (hbp : body.htmlPath = none) (hbh : body.html = none)
    (hread : C.readFile "artifacts/email.html" = some c)
    (hto : toArray base.to_list ≠ [])
    (hd : ∀ n, ∃ inp hov hpv, C.hitl n = .ok "has-input" inp hov hpv ∧ jsTrim inp ≠ "")
    (hr : ∀ n s, ∃ h rel, C.regen n s = .ok h rel) :
    hitlCalls (sendEmailFlow C base body none maxLoops now meta0).2.events ≤ maxLoops + 1 ∧
    regenCalls (sendEmailFlow C base body none maxLoops now meta0).2.events ≤ maxLoops ∧
    deliverInvoked (sendEmailFlow C base body none maxLoops now meta0).2.events = true := by
  have hred : sendEmailFlow C base body none maxLoops now meta0
      = sendCore C base body maxLoops c "artifacts/email.html" ⟨meta0, []⟩ := by
    simp [sendEmailFlow, hsec, hbp, hbh, hread, strTruthy]
  rw [hred]
  obtain ⟨⟨h, p, hp⟩, hc1, hc2, -⟩ :=
    hitlLoop_allHasInput C base hd hr (maxLoops - 1) 0 c "artifacts/email.html" ⟨meta0, []⟩
  rcases hex : hitlLoop C base (maxLoops - 1) 0 c "artifacts/email.html" ⟨meta0, []⟩
    with ⟨ex1, stx⟩
  rw [hex] at hp hc1 hc2
  simp only at hp hc1 hc2
  subst hp
  have hto' : (toArray base.to_list).isEmpty = false := by
    cases hl : toArray base.to_list
    · exact absurd hl hto
    · rfl
  have h0 : hitlCalls ([] : List Event) = 0 := rfl
  have h0r : regenCalls ([] : List Event) = 0 := rfl
  rw [h0] at hc1
  rw [h0r] at hc2
  have key : (sendCore C base body maxLoops c "artifacts/email.html" ⟨meta0, []⟩).2.events
      = stx.events ++ [Event.deliverCall (toArray base.to_list) (toArray base.cc_list)
          (toArray base.bcc_list)] := by
    rcases hdel : C.deliver (toArray base.to_list) (toArray base.cc_list)
        (toArray base.bcc_list) h with m | sendId <;>
      simp [sendCore, buildRecipients, hskip, hto', hex, hdel, logp, emit]
  rw [key, hitlCalls_append, regenCalls_append, hitlCalls_deliver, regenCalls_deliver,
    deliverInvoked_snoc]
  refine ⟨by omega, by omega, rfl⟩

/-- Witness for C1 at the concrete always-has-input collaborator. -/
theorem C1_review_loop_bounded_witness :
    1 ≤ 3 ∧
    hitlCalls (sendEmailFlow alwaysInputCollab gateOnConfig {} none 3 7 activeMeta).2.events
      ≤ 3 + 1 ∧
    regenCalls (sendEmailFlow alwaysInputCollab gateOnConfig {} none 3 7 activeMeta).2.events
      ≤ 3 ∧
    deliverInvoked (sendEmailFlow alwaysInputCollab gateOnConfig {} none 3 7 activeMeta).2.events
      = true := by
  refine ⟨by decide, ?_⟩
  exact C1_review_loop_bounded alwaysInputCollab gateOnConfig {} 3 7 activeMeta "<p>v</p>"
    (by decide) rfl rfl rfl rfl rfl (by decide)
    (fun n => ⟨"x", none, none, rfl, by decide⟩)
    (fun n s => ⟨"<p>new</p>", "artifacts/email.html", rfl⟩)

/-- C3: a send on an instance whose configuration has no review-gate block
aborts with the missing-review-config error (spec name MissingReviewConfig,
source string missing_hitl_config_section) recorded as last_error with
status abort, before any collaborator is invoked: the event trace is empty,
so in particular the delivery collaborator is never called. -/
theorem C3_missing_review_config (C : Collab) (base : Config) (body : SendBody)
    (ovr : Option String) (maxLoops now : Nat) (meta0 : MetaDoc)
    (hsec : hasHitlSection base = false) :
    (sendEmailFlow C base body ovr maxLoops now meta0).1 = .error "missing_hitl_config_section" ∧
    (sendEmailFlow C base body ovr maxLoops now meta0).2.events = [] ∧
    (sendEmailFlow C base body ovr maxLoops now meta0).2.meta.status = "abort" ∧
    (sendEmailFlow C base body ovr maxLoops now meta0).2.meta.last_error
      = some "missing_hitl_config_section" ∧
    (sendEmailFlow C base body ovr maxLoops now meta0).2.meta.progress
      = meta0.progress ++ ["missing_hitl_config_section"] := by
  refine ⟨?_, ?_, ?_, ?_, ?_⟩ <;>
    simp [sendEmailFlow, hsec, setAbort, logp, updateMetaJson, applyUpdates]

/-- Witness for C3 at a concrete gateless configuration. -/
theorem C3_missing_review_config_witness :
    hasHitlSection noGateConfig = false ∧
    (sendEmailFlow errCollab noGateConfig {} none 3 7 activeMeta).1
      = .error "missing_hitl_config_section" ∧
    (sendEmailFlow errCollab noGateConfig {} none 3 7 activeMeta).2.events = [] ∧
    (sendEmailFlow errCollab noGateConfig {} none 3 7 activeMeta).2.meta.status = "abort" := by
  refine ⟨rfl, ?_, ?_, ?_⟩
  · exact (C3_missing_review_config errCollab noGateConfig {} none 3 7 activeMeta rfl).1
  · exact (C3_missing_review_config errCollab noGateConfig {} none 3 7 activeMeta rfl).2.1
  · exact (C3_missing_review_config errCollab noGateConfig {} none 3 7 activeMeta rfl).2.2.1

/-- C4: a send whose resolved to/cc/bcc recipient lists are all empty fails
with no_recipients_configured (spec name NoRecipientsConfigured) before any
collaborator call — the event trace is empty — and leaves the state
document untouched; there is no fallback to the sender.  The review-gate
block is present (the spec's own config invariant; its absence is caught
first by the C3 validation) and the artifact is readable (it is read before
recipient resolution). -/
theorem C4_no_recipients (C : Collab) (base : Config) (body : SendBody)
    (maxLoops now : Nat) (meta0 : MetaDoc) (c : String)
    (hsec : hasHitlSection base = true)
    (hbp : body.htmlPath = none) (hbh : body.html = none)
    (hread : C.readFile "artifacts/email.html" = some c)
    (hto : toArray base.to_list = []) (hcc : toArray base.cc_list = [])
    (hbc : toArray base.bcc_list = []) :
    (sendEmailFlow C base body none maxLoops now meta0).1 = .error "no_recipients_configured" ∧
    (sendEmailFlow C base body none maxLoops now meta0).2.events = [] ∧
    (sendEmailFlow C base body none maxLoops now meta0).2.meta = meta0 := by
  refine ⟨?_, ?_, ?_⟩ <;>
    simp [sendEmailFlow, sendCore, hsec, hbp, hbh, hread, hto, hcc, hbc,
      buildRecipients, strTruthy]

/-- Witness for C4 at a concrete recipientless configuration. -/
theorem C4_no_recipients_witness :
    hasHitlSection noRecipConfig = true ∧
    (sendEmailFlow errCollab noRecipConfig {} none 3 7 activeMeta).1
      = .error "no_recipients_configured" ∧
    (sendEmailFlow errCollab noRecipConfig {} none 3 7 activeMeta).2.events = [] ∧
    (sendEmailFlow errCollab noRecipConfig {} none 3 7 activeMeta).2.meta = activeMeta := by
  refine ⟨rfl, ?_⟩
  exact (C4_no_recipients errCollab noRecipConfig {} 3 7 activeMeta "<p>v</p>"
    rfl rfl rfl rfl rfl rfl rfl)
theorem sendCore_halted (C : Collab) (base : Config) (body : SendBody)
    (maxLoops : Nat) (html htmlPath : String) (st0 : FlowState) (s : String)
    (hh : (sendCore C base body maxLoops html htmlPath st0).1 = .halted s) :
    s = "wait-for-human" ∧
    (sendCore C base body maxLoops html htmlPath st0).2.meta.status = st0.meta.status := by
  by_cases hre : ((toArray base.to_list = [] ∧ toArray base.cc_list = [])
      ∧ toArray base.bcc_list = [])
  · simp [sendCore, buildRecipients, hre] at hh
  · by_cases hsk : body.skipHitl = true
    · simp [sendCore, buildRecipients, hre, hsk] at hh
      split at hh <;> simp at hh
    · have hsk' : body.skipHitl = false := by simpa using hsk
      rcases hex : hitlLoop C base (maxLoops - 1) 0 html htmlPath st0 with ⟨ex1, stx⟩
      rcases ex1 with ⟨h1, p1⟩ | r
      · simp [sendCore, buildRecipients, hre, hsk', hex] at hh
        split at hh <;> simp at hh
      · have hr : r = SendResult.halted s := by
          simpa [sendCore, buildRecipients, hre, hsk', hex] using hh
        have hfst : (hitlLoop C base (maxLoops - 1) 0 html htmlPath st0).1
            = LoopExit.ret (.halted s) := by
          rw [hex, hr]
        obtain ⟨hs1, hs2⟩ := hitlLoop_halted C base (maxLoops - 1) 0 html htmlPath st0 s hfst
        refine ⟨hs1, ?_⟩
        have hsnd : (sendCore C base body maxLoops html htmlPath st0).2 = stx := by
          simp [sendCore, buildRecipients, hre, hsk', hex]
        rw [hsnd]
        rw [hex] at hs2
        simpa using hs2

theorem sendEmailFlow_halted (C : Collab) (base : Config) (body : SendBody)
    (ovr : Option String) (maxLoops now : Nat) (meta0 : MetaDoc) (s : String)
    (hh : (sendEmailFlow C base body ovr maxLoops now meta0).1 = .halted s) :
    s = "wait-for-human" ∧
    (sendEmailFlow C base body ovr maxLoops now meta0).2.meta.status = meta0.status := by
  by_cases hsec : hasHitlSection base = false
  · simp [sendEmailFlow, hsec, setAbort, logp, updateMetaJson, applyUpdates] at hh
  · rcases e1 : strTruthy ovr with _ | h1
    · rcases e2 : strTruthy body.html with _ | h2
      · rcases e3 : strTruthy body.htmlPath with _ | p3
        · rcases e4 : C.readFile "artifacts/email.html" with _ | c4
          · simp [sendEmailFlow, hsec, e1, e2, e3, e4] at hh
          · have hred : sendEmailFlow C base body ovr maxLoops now meta0
                = sendCore C base body maxLoops c4 "artifacts/email.html" ⟨meta0, []⟩ := by
              simp [sendEmailFlow, hsec, e1, e2, e3, e4]
            rw [hred] at hh ⊢
            exact sendCore_halted C base body maxLoops c4 "artifacts/email.html" ⟨meta0, []⟩ s hh
        · rcases e4 : C.readFile p3 with _ | c4
          · simp [sendEmailFlow, hsec, e1, e2, e3, e4] at hh
          · have hred : sendEmailFlow C base body ovr maxLoops now meta0
                = sendCore C base body maxLoops c4 p3 ⟨meta0, []⟩ := by
              simp [sendEmailFlow, hsec, e1, e2, e3, e4]
            rw [hred] at hh ⊢
            exact sendCore_halted C base body maxLoops c4 p3 ⟨meta0, []⟩ s hh
      · rcases e3 : strTruthy body.htmlPath with _ | p3
        · have hred : sendEmailFlow C base body ovr maxLoops now meta0
              = sendCore C base body maxLoops h2 "artifacts/tmp/email-materialized.html"
                ⟨meta0, []⟩ := by
            simp [sendEmailFlow, hsec, e1, e2, e3]
          rw [hred] at hh ⊢
          exact sendCore_halted C base body maxLoops h2 "artifacts/tmp/email-materialized.html"
            ⟨meta0, []⟩ s hh
        · have hred : sendEmailFlow C base body ovr maxLoops now meta0
              = sendCore C base body maxLoops h2 p3 ⟨meta0, []⟩ := by
            simp [sendEmailFlow, hsec, e1, e2, e3]
          rw [hred] at hh ⊢
          exact sendCore_halted C base body maxLoops h2 p3 ⟨meta0, []⟩ s hh
    · rcases e3 : strTruthy body.htmlPath with _ | p3
      · rcases e2 : strTruthy body.html with _ | h2
        · have hred : sendEmailFlow C base body ovr maxLoops now meta0
              = sendCore C base body maxLoops h1 "artifacts/email.html" ⟨meta0, []⟩ := by
            simp [sendEmailFlow, hsec, e1, e2, e3]
          rw [hred] at hh ⊢
          exact sendCore_halted C base body maxLoops h1 "artifacts/email.html" ⟨meta0, []⟩ s hh
        · have hred : sendEmailFlow C base body ovr maxLoops now meta0
              = sendCore C base body maxLoops h1 "artifacts/tmp/email-materialized.html"
                ⟨meta0, []⟩ := by
            simp [sendEmailFlow, hsec, e1, e2, e3]
          rw [hred] at hh ⊢
          exact sendCore_halted C base body maxLoops h1 "artifacts/tmp/email-materialized.html"
            ⟨meta0, []⟩ s hh
      · have hred : sendEmailFlow C base body ovr maxLoops now meta0
            = sendCore C base body maxLoops h1 p3 ⟨meta0, []⟩ := by
          simp [sendEmailFlow, hsec, e1, e3]
        rw [hred] at hh ⊢
        exact sendCore_halted C base body maxLoops h1 p3 ⟨meta0, []⟩ s hh

/-- C8 as amended: any terminal completion of the asynchronous send,
generate-then-send or generate background task leaves the persisted status
finished or abort — never active — except for the explicit pause outcome,
where the flow reports wait-for-human and the status stays active; an
exception thrown inside a background task is caught at the task boundary,
recorded as last_error, and the run is aborted.  The synchronous generate
handler, by contrast, performs no finalization: whatever the generation
outcome, the state document it leaves behind is exactly the activation
image (status active), so a terminal synchronous generate leaves the run
active. -/
theorem C8_terminal_status (C : Collab) (base : Config) (body : SendBody)
    (gen : GenOutcome) (maxLoops now : Nat) (meta0 : MetaDoc)
    (h0 : meta0.status = "active") :
    ((handleSendBg C base body maxLoops now meta0).2.meta.status = "finished"
      ∨ (handleSendBg C base body maxLoops now meta0).2.meta.status = "abort"
      ∨ ((handleSendBg C base body maxLoops now meta0).1 = .halted "wait-for-human"
          ∧ (handleSendBg C base body maxLoops now meta0).2.meta.status = "active")) ∧
    ((handleGenerateSendBg C base body gen maxLoops now meta0).2.meta.status = "finished"
      ∨ (handleGenerateSendBg C base body gen maxLoops now meta0).2.meta.status = "abort"
      ∨ ((handleGenerateSendBg C base body gen maxLoops now meta0).1 = .halted "wait-for-human"
          ∧ (handleGenerateSendBg C base body gen maxLoops now meta0).2.meta.status
              = "active")) ∧
    ((handleGenerateBg gen now meta0).status = "finished"
      ∨ (handleGenerateBg gen now meta0).status = "abort") ∧
    (∀ (file : Option MetaDoc) (cfgId : Option String) (folderLast : String),
      (handleGenerateSync gen file cfgId folderLast now).2
        = (resolveContextActivate file cfgId folderLast now).1) := by
  refine ⟨?_, ?_, ?_, ?_⟩
  · rcases hr : sendEmailFlow C base body none maxLoops now meta0 with ⟨r1, st1⟩
    rcases r1 with e | s | sendId | e
    · right; left
      simp [handleSendBg, hr, setAbort, updateMetaJson, applyUpdates]
    · right; right
      have hfst : (sendEmailFlow C base body none maxLoops now meta0).1 = .halted s := by
        rw [hr]
      obtain ⟨hs1, hs2⟩ := sendEmailFlow_halted C base body none maxLoops now meta0 s hfst
      subst hs1
      rw [hr] at hs2
      simp only at hs2
      constructor
      · simp [handleSendBg, hr]
      · simp only [handleSendBg, hr]
        rw [hs2, h0]
    · left
      simp [handleSendBg, hr, updateMetaJson, applyUpdates]
    · right; left
      simp [handleSendBg, hr, setAbort, updateMetaJson, applyUpdates]
  · rcases gen with ⟨e⟩ | ⟨e⟩ | ⟨e⟩ | ⟨h, rel⟩
    · right; left
      simp [handleGenerateSendBg, setAbort, updateMetaJson, applyUpdates]
    · right; left
      simp [handleGenerateSendBg, setAbort, updateMetaJson, applyUpdates]
    · right; left
      simp [handleGenerateSendBg, setAbort, updateMetaJson, applyUpdates]
    · rcases hr : sendEmailFlow C base body (some h) maxLoops now meta0 with ⟨r2, st2⟩
      rcases r2 with e | s | sendId | e
      · right; left
        simp [handleGenerateSendBg, hr, updateMetaJson, applyUpdates]
      · right; right
        have hfst : (sendEmailFlow C base body (some h) maxLoops now meta0).1 = .halted s := by
          rw [hr]
        obtain ⟨hs1, hs2⟩ := sendEmailFlow_halted C base body (some h) maxLoops now meta0 s hfst
        subst hs1
        rw [hr] at hs2
        simp only at hs2
        constructor
        · simp [handleGenerateSendBg, hr]
        · simp only [handleGenerateSendBg, hr]
          rw [hs2, h0]
      · left
        simp [handleGenerateSendBg, hr, updateMetaJson, applyUpdates]
      · right; left
        simp [handleGenerateSendBg, hr, setAbort, updateMetaJson, applyUpdates]
  · rcases gen with ⟨e⟩ | ⟨e⟩ | ⟨e⟩ | ⟨h, rel⟩ <;>
      simp [handleGenerateBg, updateMetaJson, applyUpdates]
  · intro file cfgId folderLast
    rcases hact : resolveContextActivate file cfgId folderLast now with ⟨f, err⟩
    rcases err with _ | e <;>
      rcases gen with ⟨e2⟩ | ⟨e2⟩ | ⟨e2⟩ | ⟨h, rel⟩ <;>
        simp [handleGenerateSync, hact]

theorem hitlLoop_wait (C : Collab) (base : Config) (budget loops : Nat)
    (html htmlPath : String) (st : FlowState)
    (hC : C.hitl loops = .ok "wait-for-human" "" none none) :
    hitlLoop C base budget loops html htmlPath st
      = (.ret (.halted "wait-for-human"),
          logp (evalPrefixState st loops) "hitl wait-for-human") := by
  conv_lhs => rw [hitlLoop]
  simp [hC, evalPrefixState]

theorem wiRespond_approve_delivers (C : Collab) (base : Config) (maxLoops now : Nat)
    (info : String) (m1 : MetaDoc) (store : ArtifactStore) (c dId : String)
    (hsec : hasHitlSection base = true)
    (hread : C.readFile "artifacts/email.html" = some c)
    (hto : toArray base.to_list ≠ [])
    (hdel : ∀ t cc bcc h, C.deliver t cc bcc h = .ok dId) :
    (wiRespond C base maxLoops now "approve" info m1 store).1 = 200 ∧
    (wiRespond C base maxLoops now "approve" info m1 store).2.1.status = "finished" ∧
    (wiRespond C base maxLoops now "approve" info m1 store).2.2.1 = store ∧
    deliverInvoked (wiRespond C base maxLoops now "approve" info m1 store).2.2.2 = true ∧
    hitlCalls (wiRespond C base maxLoops now "approve" info m1 store).2.2.2 = 0 := by
  refine ⟨?_, ?_, ?_, ?_, ?_⟩ <;>
    simp [wiRespond, sendEmailFlow, sendCore, hsec, hread, strTruthy, buildRecipients,
      hto, hdel, updateMetaJson, applyUpdates, logp, emit, deliverInvoked, hitlCalls,
      List.countP_cons]

/-- C2: with the gate engaged, a wait decision makes the send flow return
the waiting result, leaves the persisted status active, performs no
delivery and no regeneration (the single event is the one review call, so
the wait consumed no loop budget); a subsequent resume with approve runs
the flow with the gate bypassed (no review call in its trace), invokes the
delivery transport, and finalizes the instance to finished. -/
theorem C2_wait_then_resume (C : Collab) (base : Config) (maxLoops now : Nat)
    (meta0 : MetaDoc) (store : ArtifactStore) (c dId : String)
    (h0 : meta0.status = "active")
    (hsec : hasHitlSection base = true)
    (_hen : (getHitlConfig base).enable = true)
    (hto : toArray base.to_list ≠ [])
    (hread : C.readFile "artifacts/email.html" = some c)
    (hwait : C.hitl 0 = .ok "wait-for-human" "" none none)
    (hdel : ∀ t cc bcc h, C.deliver t cc bcc h = .ok dId) :
    ((sendEmailFlow C base {} none maxLoops now meta0).1 = .halted "wait-for-human"
      ∧ (sendEmailFlow C base {} none maxLoops now meta0).2.meta.status = "active"
      ∧ (sendEmailFlow C base {} none maxLoops now meta0).2.events = [Event.hitlCall 0])
    ∧ ((wiRespond C base maxLoops now "approve" ""
          (sendEmailFlow C base {} none maxLoops now meta0).2.meta store).1 = 200
      ∧ (wiRespond C base maxLoops now "approve" ""
          (sendEmailFlow C base {} none maxLoops now meta0).2.meta store).2.1.status = "finished"
      ∧ deliverInvoked (wiRespond C base maxLoops now "approve" ""
          (sendEmailFlow C base {} none maxLoops now meta0).2.meta store).2.2.2 = true
      ∧ hitlCalls (wiRespond C base maxLoops now "approve" ""
          (sendEmailFlow C base {} none maxLoops now meta0).2.meta store).2.2.2 = 0) := by
  have hred : sendEmailFlow C base {} none maxLoops now meta0
      = (.halted "wait-for-human",
          logp (evalPrefixState ⟨meta0, []⟩ 0) "hitl wait-for-human") := by
    simp [sendEmailFlow, sendCore, hsec, hread, strTruthy, buildRecipients, hto,
      hitlLoop_wait, hwait, logp, emit, evalPrefixState]
  rw [hred]
  obtain ⟨b1, b2, b3, b4, b5⟩ := wiRespond_approve_delivers C base maxLoops now ""
    (logp (evalPrefixState ⟨meta0, []⟩ 0) "hitl wait-for-human").meta store c dId
    hsec hread hto hdel
  refine ⟨⟨rfl, ?_, ?_⟩, b1, b2, b4, b5⟩
  · simp [logp, emit, evalPrefixState, h0]
  · simp [logp, emit, evalPrefixState]

/-- Witness for C2 at the concrete waiting collaborator. -/
theorem C2_wait_then_resume_witness :
    activeMeta.status = "active" ∧
    (sendEmailFlow waitCollab gateOnConfig {} none 3 7 activeMeta).1
      = .halted "wait-for-human" ∧
    (sendEmailFlow waitCollab gateOnConfig {} none 3 7 activeMeta).2.meta.status = "active" ∧
    (sendEmailFlow waitCollab gateOnConfig {} none 3 7 activeMeta).2.events
      = [Event.hitlCall 0] ∧
    (wiRespond waitCollab gateOnConfig 3 7 "approve" ""
        (sendEmailFlow waitCollab gateOnConfig {} none 3 7 activeMeta).2.meta
        ⟨some "v0", []⟩).2.1.status = "finished" ∧
    deliverInvoked (wiRespond waitCollab gateOnConfig 3 7 "approve" ""
        (sendEmailFlow waitCollab gateOnConfig {} none 3 7 activeMeta).2.meta
        ⟨some "v0", []⟩).2.2.2 = true ∧
    hitlCalls (wiRespond waitCollab gateOnConfig 3 7 "approve" ""
        (sendEmailFlow waitCollab gateOnConfig {} none 3 7 activeMeta).2.meta
        ⟨some "v0", []⟩).2.2.2 = 0 := by
  have h := C2_wait_then_resume waitCollab gateOnConfig 3 7 activeMeta ⟨some "v0", []⟩
    "<p>v</p>" "m2" rfl rfl rfl (by decide) rfl rfl (fun t cc bcc h => rfl)
  exact ⟨rfl, h.1.1, h.1.2.1, h.1.2.2, h.2.2.1, h.2.2.2.1, h.2.2.2.2⟩

theorem hitlLoop_err_enabled (C : Collab) (base : Config) (budget loops : Nat)
    (html htmlPath : String) (st : FlowState) (e : String)
    (hC : C.hitl loops = .err e) (hen : (getHitlConfig base).enable = true) :
    hitlLoop C base budget loops html htmlPath st
      = (.ret (.error e),
          setAbort (logp (evalPrefixState st loops) ("hitl error: " ++ e)) e 0) := by
  conv_lhs => rw [hitlLoop]
  simp [hC, hen, evalPrefixState]

theorem hitlLoop_err_disabled (C : Collab) (base : Config) (budget loops : Nat)
    (html htmlPath : String) (st : FlowState) (e : String)
    (hC : C.hitl loops = .err e) (hen : (getHitlConfig base).enable = false) :
    hitlLoop C base budget loops html htmlPath st
      = (.proceed html htmlPath,
          logp (logp (evalPrefixState st loops) ("hitl error: " ++ e))
            "hitl error (proceeding without block)") := by
  conv_lhs => rw [hitlLoop]
  simp [hC, hen, evalPrefixState]

/-- C5 as amended: a review-collaborator error aborts the run with the
error recorded as last_error when the gate's enable flag is true; when the
flag is false the run proceeds to delivery and the async task finalizes it
to finished — but the review error text is recorded only in the progress
log, while last_error is reset to null by the finalization, not set to the
error. -/
theorem C5_review_error_policy (C : Collab) (base : Config) (maxLoops now : Nat)
    (meta0 : MetaDoc) (e c dId : String)
    (hsec : hasHitlSection base = true)
    (hto : toArray base.to_list ≠ [])
    (hread : C.readFile "artifacts/email.html" = some c)
    (herr : C.hitl 0 = .err e)
    (hdel : ∀ t cc bcc h, C.deliver t cc bcc h = .ok dId) :
    ((getHitlConfig base).enable = true →
      (handleSendBg C base {} maxLoops now meta0).1 = .error e ∧
      (handleSendBg C base {} maxLoops now meta0).2.meta.status = "abort" ∧
      (handleSendBg C base {} maxLoops now meta0).2.meta.last_error = some e) ∧
    ((getHitlConfig base).enable = false →
      (handleSendBg C base {} maxLoops now meta0).1 = .sent dId ∧
      (handleSendBg C base {} maxLoops now meta0).2.meta.status = "finished" ∧
      (handleSendBg C base {} maxLoops now meta0).2.meta.last_error = none ∧
      ("hitl error: " ++ e) ∈ (handleSendBg C base {} maxLoops now meta0).2.meta.progress) := by
  constructor
  · intro hen
    have hred : sendEmailFlow C base {} none maxLoops now meta0
        = (.error e,
            setAbort (logp (evalPrefixState ⟨meta0, []⟩ 0) ("hitl error: " ++ e)) e 0) := by
      simp [sendEmailFlow, sendCore, hsec, hread, strTruthy, buildRecipients, hto,
        hitlLoop_err_enabled, herr, hen]
    refine ⟨?_, ?_, ?_⟩ <;>
      simp [handleSendBg, hred, setAbort, logp, emit, evalPrefixState,
        updateMetaJson, applyUpdates]
  · intro hen
    have hred : sendEmailFlow C base {} none maxLoops now meta0
        = (.sent dId,
            logp (emit (logp (logp (logp (evalPrefixState ⟨meta0, []⟩ 0)
                ("hitl error: " ++ e)) "hitl error (proceeding without block)")
                "sending emails")
              (Event.deliverCall (toArray base.to_list) (toArray base.cc_list)
                (toArray base.bcc_list)))
            "sent email") := by
      simp [sendEmailFlow, sendCore, hsec, hread, strTruthy, buildRecipients, hto,
        hitlLoop_err_disabled, herr, hen, hdel, logp, emit, evalPrefixState]
    refine ⟨?_, ?_, ?_, ?_⟩ <;>
      simp [handleSendBg, hred, setAbort, logp, emit, evalPrefixState,
        updateMetaJson, applyUpdates]

/-- Counterexample for C5 as stated: gate disabled, review collaborator
errors with hitl_http_500, the run finishes — but last_error is null after
finalization instead of containing the review error text (which lands in
the progress log only). -/
theorem C5_counterexample :
    (handleSendBg errCollab gateOffConfig {} 3 7 activeMeta).2.meta.status = "finished" ∧
    (handleSendBg errCollab gateOffConfig {} 3 7 activeMeta).2.meta.last_error = none ∧
    "hitl error: hitl_http_500"
      ∈ (handleSendBg errCollab gateOffConfig {} 3 7 activeMeta).2.meta.progress := by
  refine ⟨rfl, rfl, ?_⟩
  decide

/-- Witness for the amended C5 at the concrete erroring collaborator with
the gate disabled. -/
theorem C5_review_error_policy_witness :
    hasHitlSection gateOffConfig = true ∧
    (handleSendBg errCollab gateOffConfig {} 3 7 activeMeta).1 = .sent "m3" ∧
    (handleSendBg errCollab gateOffConfig {} 3 7 activeMeta).2.meta.status = "finished" ∧
    (handleSendBg errCollab gateOffConfig {} 3 7 activeMeta).2.meta.last_error = none ∧
    "hitl error: hitl_http_500"
      ∈ (handleSendBg errCollab gateOffConfig {} 3 7 activeMeta).2.meta.progress := by
  have h := C5_review_error_policy errCollab gateOffConfig 3 7 activeMeta
    "hitl_http_500" "<p>v</p>" "m3" rfl (by decide) rfl rfl (fun t cc bcc h => rfl)
  exact ⟨rfl, (h.2 rfl).1, (h.2 rfl).2.1, (h.2 rfl).2.2.1, (h.2 rfl).2.2.2⟩

/-- C7 as amended: activation via resolveContext overwrites an existing
state document with status active and started_at set to the current time,
leaving last_error unchanged; it fails — rather than creating the document
— when the document is missing; it fails with the instance_id mismatch
error (spec name ConfigMismatch) when the config declares an identifier
disagreeing with the final path segment of the instance root; the
asynchronous handlers' activation, which passes an explicit last_error
null update, is the variant that clears last_error. -/
theorem C7_activation (cfgId : Option String) (folderLast : String) (now : Nat) :
    ((resolveContextActivate none cfgId folderLast now).1 = none ∧
      (resolveContextActivate none cfgId folderLast now).2
        = some "meta.json error: meta.json not found") ∧
    (∀ m : MetaDoc,
      (resolveContextActivate (some m) none folderLast now).1
        = some { m with status := "active", started_at := some now } ∧
      (resolveContextActivate (some m) none folderLast now).2 = none) ∧
    (∀ m : MetaDoc, ∀ cid : String, cid ≠ "" → cid ≠ folderLast →
      (resolveContextActivate (some m) (some cid) folderLast now).2
        = some ("instance_id mismatch: config has " ++ cid ++ ", folder is " ++ folderLast) ∧
      (resolveContextActivate (some m) (some cid) folderLast now).1
        = some { m with status := "active", started_at := some now }) ∧
    (∀ m : MetaDoc, updateMetaJson (some m) "active" { last_error := some none } now
      = .ok { m with status := "active", started_at := some now, last_error := none }) := by
  refine ⟨⟨rfl, rfl⟩, ?_, ?_, ?_⟩
  · intro m
    constructor <;> simp [resolveContextActivate, updateMetaJson, applyUpdates, strTruthy]
  · intro m cid hne hmis
    constructor <;>
      simp [resolveContextActivate, updateMetaJson, applyUpdates, strTruthy, hne, hmis]
  · intro m
    simp [updateMetaJson, applyUpdates]

/-- Counterexample for C7 as stated: activating an instance whose existing
state document carries a last_error leaves that last_error in place —
activation does not clear it. -/
theorem C7_counterexample :
    (resolveContextActivate
        (some { status := "abort", last_error := some "boom" }) none "inst1" 5).1
      = some { status := "active", started_at := some 5, last_error := some "boom" } := by
  rfl

/-- Witness for the amended C7 at concrete identifiers. -/
theorem C7_activation_witness :
    ("cfg1" : String) ≠ "" ∧ ("cfg1" : String) ≠ "inst1" ∧
    (resolveContextActivate (some activeMeta) (some "cfg1") "inst1" 5).2
      = some "instance_id mismatch: config has cfg1, folder is inst1" ∧
    (resolveContextActivate (some activeMeta) none "inst1" 5).2 = none := by
  have h := C7_activation (some "cfg1") "inst1" 5
  exact ⟨by decide, by decide,
    (h.2.2.1 activeMeta "cfg1" (by decide) (by decide)).1, (h.2.1 activeMeta).2⟩

/-- C9 as amended: a resume with decision reject and a supplied reason
sets the run to abort and leaves the artifact store untouched; the reason
is recorded in the progress log by the JSON-body callback handler (and
ignored by the query-parameter handler), while last_error is left
unchanged in both — the reason is not persisted in last_error. -/
theorem C9_reject_aborts (C : Collab) (base : Config) (maxLoops now : Nat)
    (info : String) (meta0 : MetaDoc) (store : ArtifactStore)
    (hinfo : info ≠ "") :
    ((hitlCallbackReject info meta0 store now).1 = 200 ∧
      (hitlCallbackReject info meta0 store now).2.1.status = "abort" ∧
      (hitlCallbackReject info meta0 store now).2.1.last_error = meta0.last_error ∧
      (hitlCallbackReject info meta0 store now).2.1.progress
        = meta0.progress ++ ["reject reason: " ++ info] ∧
      (hitlCallbackReject info meta0 store now).2.2 = store) ∧
    ((wiRespond C base maxLoops now "reject" info meta0 store).1 = 200 ∧
      (wiRespond C base maxLoops now "reject" info meta0 store).2.1.status = "abort" ∧
      (wiRespond C base maxLoops now "reject" info meta0 store).2.1.last_error
        = meta0.last_error ∧
      (wiRespond C base maxLoops now "reject" info meta0 store).2.1.progress
        = meta0.progress ∧
      (wiRespond C base maxLoops now "reject" info meta0 store).2.2.1 = store) := by
  constructor
  · refine ⟨?_, ?_, ?_, ?_, ?_⟩ <;>
      simp [hitlCallbackReject, hinfo, updateMetaJson, applyUpdates]
  · refine ⟨?_, ?_, ?_, ?_, ?_⟩ <;>
      simp [wiRespond, updateMetaJson, applyUpdates]

/-- Counterexample for C9 as stated: rejecting with reason budget cut sets
abort but last_error stays empty — it does not reflect the reason. -/
theorem C9_counterexample :
    (hitlCallbackReject "budget cut" activeMeta ⟨some "v0", []⟩ 7).2.1.status = "abort" ∧
    (hitlCallbackReject "budget cut" activeMeta ⟨some "v0", []⟩ 7).2.1.last_error = none :=
  ⟨rfl, rfl⟩

/-- Witness for the amended C9 at a concrete paused instance. -/
theorem C9_reject_aborts_witness :
    ("budget cut" : String) ≠ "" ∧
    (hitlCallbackReject "budget cut" activeMeta ⟨some "v0", []⟩ 7).2.1.status = "abort" ∧
    (hitlCallbackReject "budget cut" activeMeta ⟨some "v0", []⟩ 7).2.1.progress
      = ["reject reason: budget cut"] ∧
    (hitlCallbackReject "budget cut" activeMeta ⟨some "v0", []⟩ 7).2.2
      = (⟨some "v0", []⟩ : ArtifactStore) := by
  have h := C9_reject_aborts errCollab gateOnConfig 3 7 "budget cut" activeMeta
    ⟨some "v0", []⟩ (by decide)
  refine ⟨by decide, h.1.2.1, ?_, h.1.2.2.2.2⟩
  simpa using h.1.2.2.2.1

/-- C10: a resume whose decision value is outside approve, modify and
reject answers HTTP 501 respond_not_implemented and leaves the state
document (status, last_error, progress) and artifact store entirely
unchanged, with no collaborator invoked. -/
theorem C10_unknown_resume (C : Collab) (base : Config) (maxLoops now : Nat)
    (respond info : String) (meta0 : MetaDoc) (store : ArtifactStore)
    (h1 : respond ≠ "approve") (h2 : respond ≠ "modify") (h3 : respond ≠ "reject") :
    wiRespond C base maxLoops now respond info meta0 store = (501, meta0, store, []) := by
  simp [wiRespond, h1, h2, h3]

/-- Witness for C10 at a concrete unknown decision value. -/
theorem C10_unknown_resume_witness :
    ("escalate" : String) ≠ "approve" ∧
    wiRespond errCollab gateOnConfig 3 7 "escalate" "" activeMeta ⟨some "v0", []⟩
      = (501, activeMeta, ⟨some "v0", []⟩, []) :=
  ⟨by decide, C10_unknown_resume errCollab gateOnConfig 3 7 "escalate" "" activeMeta
    ⟨some "v0", []⟩ (by decide) (by decide) (by decide)⟩

/-- Witness for C8 at a concrete erroring collaborator, a successful
generation outcome, and a previously finished instance re-activated by a
synchronous generate. -/
theorem C8_terminal_status_witness :
    activeMeta.status = "active" ∧
    ((handleSendBg errCollab gateOnConfig {} 3 7 activeMeta).2.meta.status = "finished"
      ∨ (handleSendBg errCollab gateOnConfig {} 3 7 activeMeta).2.meta.status = "abort"
      ∨ ((handleSendBg errCollab gateOnConfig {} 3 7 activeMeta).1 = .halted "wait-for-human"
          ∧ (handleSendBg errCollab gateOnConfig {} 3 7 activeMeta).2.meta.status = "active")) ∧
    ((handleGenerateSendBg errCollab gateOnConfig {}
          (.ok "<p>g</p>" "artifacts/email.html") 3 7 activeMeta).2.meta.status = "finished"
      ∨ (handleGenerateSendBg errCollab gateOnConfig {}
          (.ok "<p>g</p>" "artifacts/email.html") 3 7 activeMeta).2.meta.status = "abort"
      ∨ ((handleGenerateSendBg errCollab gateOnConfig {}
            (.ok "<p>g</p>" "artifacts/email.html") 3 7 activeMeta).1
              = .halted "wait-for-human"
          ∧ (handleGenerateSendBg errCollab gateOnConfig {}
              (.ok "<p>g</p>" "artifacts/email.html") 3 7 activeMeta).2.meta.status
              = "active")) ∧
    ((handleGenerateBg (.ok "<p>g</p>" "artifacts/email.html") 7 activeMeta).status = "finished"
      ∨ (handleGenerateBg (.ok "<p>g</p>" "artifacts/email.html") 7 activeMeta).status
          = "abort") ∧
    (handleGenerateSync (.ok "<p>g</p>" "artifacts/email.html")
        (some { status := "finished", finished_at := some 3 }) none "inst1" 7).2
      = (resolveContextActivate
          (some { status := "finished", finished_at := some 3 }) none "inst1" 7).1 := by
  have h := C8_terminal_status errCollab gateOnConfig {}
    (.ok "<p>g</p>" "artifacts/email.html") 3 7 activeMeta rfl
  exact ⟨rfl, h.1, h.2.1, h.2.2.1,
    h.2.2.2 (some { status := "finished", finished_at := some 3 }) none "inst1"⟩

/-- Counterexample for C8 as stated: a synchronous generate that completes
successfully (HTTP 200 — a terminal completion, not the Paused outcome)
leaves the persisted status active: the handler re-activated the instance
and never finalized it to finished or abort. -/
theorem C8_counterexample :
    (handleGenerateSync (.ok "<p>g</p>" "artifacts/email.html")
        (some { status := "finished", finished_at := some 3 }) none "inst1" 7).1 = 200 ∧
    (handleGenerateSync (.ok "<p>g</p>" "artifacts/email.html")
        (some { status := "finished", finished_at := some 3 }) none "inst1" 7).2
      = some { status := "active", started_at := some 7, finished_at := some 3 } :=
  ⟨rfl, rfl⟩
